import Mathlib

/-!
Verification of the flight-price fetch-and-normalize pipeline
(`flight_price_fetcher.py`, class `GoogleFlightsFetcher`).

Python strings are embedded as `List Char`; `re.search` calls are embedded
by explicit leftmost-match scans whose semantics match the concrete
patterns used in the source (`(\d+)\s*(?:hr|hour|h)`, `(\d+)\s*(?:min|minute|m)`,
`(\d+)\s*stop`, `[\d,]+(?:\.\d+)?`, and the `%Y-%m-%d` format of
`datetime.strptime`).  Prices are embedded as rationals, machine floats being
exact on the decimal literals the parser extracts at the scales involved.
-/

namespace FlightFetcher

/-- Python `\s` whitespace characters (ASCII range). -/
def isSpaceChar (c : Char) : Bool :=
  c = ' ' || c = '\t' || c = '\n' || c = '\r' || c = '\x0b' || c = '\x0c'

/-- ASCII decimal digits, as used by `\d` and `str.isdigit` on the inputs in play. -/
def isDigitChar (c : Char) : Bool :=
  c = '0' || c = '1' || c = '2' || c = '3' || c = '4' ||
  c = '5' || c = '6' || c = '7' || c = '8' || c = '9'

/-- Numeric value of an ASCII digit. -/
def digitVal (c : Char) : Nat :=
  if c = '0' then 0 else if c = '1' then 1 else if c = '2' then 2 else
  if c = '3' then 3 else if c = '4' then 4 else if c = '5' then 5 else
  if c = '6' then 6 else if c = '7' then 7 else if c = '8' then 8 else
  if c = '9' then 9 else 0

/-- `str.lower` on one ASCII character. -/
def pyLowerChar (c : Char) : Char :=
  if 'A' ≤ c ∧ c ≤ 'Z' then Char.ofNat (c.toNat + 32) else c

/-- `str.lower`. -/
def lowerList (s : List Char) : List Char := s.map pyLowerChar

/-- `str.upper` on one ASCII character. -/
def pyUpperChar (c : Char) : Char :=
  if 'a' ≤ c ∧ c ≤ 'z' then Char.ofNat (c.toNat - 32) else c

/-- `str.upper`. -/
def upperList (s : List Char) : List Char := s.map pyUpperChar

/-- `str.strip`: drop leading and trailing whitespace. -/
def stripList (s : List Char) : List Char :=
  ((s.dropWhile isSpaceChar).reverse.dropWhile isSpaceChar).reverse

/-- `str.isdigit`: nonempty and all digits. -/
def isDigitString (s : List Char) : Bool :=
  !s.isEmpty && s.all isDigitChar

/-- Value of a digit string, most significant digit first. -/
def natOfDigits (s : List Char) : Nat :=
  s.foldl (fun a c => 10 * a + digitVal c) 0

/-- Substring containment, Python's `needle in hay`. -/
def hasSub (needle hay : List Char) : Bool :=
  needle.isPrefixOf hay ||
    match hay with
    | [] => false
    | _ :: t => hasSub needle t

/-- Fuel-driven worker for `removeSub`; every step consumes at least one
character, so fuel equal to the string's length always suffices. -/
def removeSubGo (pat : List Char) : ℕ → List Char → List Char
  | 0, s => s
  | fuel + 1, s =>
    match s with
    | [] => []
    | c :: t =>
      if pat ≠ [] ∧ pat.isPrefixOf (c :: t) then
        removeSubGo pat fuel ((c :: t).drop pat.length)
      else c :: removeSubGo pat fuel t

/-- Python `str.replace(pat, '')` with a nonempty pattern: remove every
leftmost non-overlapping occurrence. -/
def removeSub (pat s : List Char) : List Char := removeSubGo pat s.length s

/-- Leftmost match of the regex `(\d+)\s*LIT…`: scan for a maximal digit run
followed (after greedy whitespace) by the literal `lit`; return the run's value.
This is the exact backtracking semantics for the source's patterns, where the
literal begins with a letter that is neither a digit nor whitespace. -/
def searchNumLit (lit : List Char) (s : List Char) : Option Nat :=
  match s with
  | [] => none
  | c :: t =>
    if isDigitChar c then
      let run := s.takeWhile isDigitChar
      let rest := (s.dropWhile isDigitChar).dropWhile isSpaceChar
      if lit.isPrefixOf rest then some (natOfDigits run)
      else searchNumLit lit t
    else searchNumLit lit t

/-- Leftmost match of `[\d,]+(?:\.\d+)?` on a comma-free string, as a rational.
A maximal digit run, optionally extended by `.` and at least one digit. -/
def findNumToken (s : List Char) : Option ℚ :=
  match s with
  | [] => none
  | c :: t =>
    if isDigitChar c then
      let run := s.takeWhile isDigitChar
      let rest := s.dropWhile isDigitChar
      match rest with
      | '.' :: u =>
        let frac := u.takeWhile isDigitChar
        if frac = [] then some (natOfDigits run)
        else some ((natOfDigits run : ℚ) + (natOfDigits frac : ℚ) / (10 ^ frac.length : ℚ))
      | _ => some (natOfDigits run)
    else findNumToken t

/-! ## Field normalizers (`_parse_duration`, `_parse_price`, `_parse_stops`) -/

/-- `GoogleFlightsFetcher._parse_duration`: lowercase and strip, search
`(\d+)\s*(?:hr|hour|h)` and `(\d+)\s*(?:min|minute|m)` (each reduces to the
first letter of the alternation for match existence), return `hours*60+minutes`;
falsy input returns 0. -/
def parseDuration (s : List Char) : Nat :=
  if s = [] then 0
  else
    let t := stripList (lowerList s)
    let hours := (searchNumLit ['h'] t).getD 0
    let minutes := (searchNumLit ['m'] t).getD 0
    hours * 60 + minutes

/-- The currency-symbol table of `_parse_price`, in Python dict insertion
order: `$, €, £, ¥, ₹, A$, C$`. -/
def currencySymbols : List (List Char × List Char) :=
  [("$".data, "USD".data), ("€".data, "EUR".data), ("£".data, "GBP".data),
   ("¥".data, "JPY".data), ("₹".data, "INR".data),
   ("A$".data, "AUD".data), ("C$".data, "CAD".data)]

/-- The symbol-scan loop of `_parse_price`: first table entry whose symbol
occurs in the string wins; its symbol is removed from the string. -/
def findCurrency : List (List Char × List Char) → List Char → List Char × List Char
  | [], s => ("USD".data, s)
  | (sym, code) :: rest, s =>
    if hasSub sym s then (code, removeSub sym s) else findCurrency rest s

/-- `GoogleFlightsFetcher._parse_price`: returns `(amount, currency)`.
Falsy input → `(0, USD)`; otherwise strip, scan the symbol table in order,
remove commas, extract the first numeric token (default 0). -/
def parsePrice (s : List Char) : ℚ × List Char :=
  if s = [] then (0, "USD".data)
  else
    let t := stripList s
    let (currency, t') := findCurrency currencySymbols t
    let amount := (findNumToken (t'.filter (· ≠ ','))).getD 0
    (amount, currency)

/-- The dynamically-typed `stops_info` argument of `_parse_stops`:
an integer (already parsed upstream), a string, or Python `None`. -/
inductive StopsInfo where
  | int (n : ℤ)
  | str (s : List Char)
  | noneV
  deriving DecidableEq, Repr

/-- `GoogleFlightsFetcher._parse_stops`: integers pass through unchanged;
`None`/empty → −1; a stripped digit string → its value; then, lowercased:
`nonstop`/`direct` substring → 0, exactly `unknown` → −1, regex
`(\d+)\s*stop` → its group, otherwise −1. -/
def parseStops (info : StopsInfo) : ℤ :=
  match info with
  | .int n => n
  | .noneV => -1
  | .str s =>
    if s = [] then -1
    else
      let t := stripList s
      if isDigitString t then (natOfDigits t : ℤ)
      else
        let t := lowerList t
        if hasSub "nonstop".data t ∨ hasSub "direct".data t then 0
        else if t = "unknown".data then -1
        else
          match searchNumLit "stop".data t with
          | some n => (n : ℤ)
          | none => -1

/-! ## Dates: `datetime.strptime(s, '%Y-%m-%d')` and day arithmetic -/

/-- A calendar date as produced by `datetime.strptime`. -/
structure PyDate where
  y : ℕ
  m : ℕ
  d : ℕ
  deriving DecidableEq, Repr

/-- Gregorian leap year, as `datetime` uses. -/
def isLeap (y : ℕ) : Bool := (y % 4 = 0 && y % 100 != 0) || y % 400 = 0

/-- Days in a month (month 1–12). -/
def daysInMonth (y m : ℕ) : ℕ :=
  if m = 2 then (if isLeap y then 29 else 28)
  else if m = 4 ∨ m = 6 ∨ m = 9 ∨ m = 11 then 30
  else 31

/-- Days in the year strictly before month `m`. -/
def daysBeforeMonth (m : ℕ) (leap : Bool) : ℕ :=
  let base :=
    if m ≤ 1 then 0 else if m = 2 then 31 else if m = 3 then 59 else
    if m = 4 then 90 else if m = 5 then 120 else if m = 6 then 151 else
    if m = 7 then 181 else if m = 8 then 212 else if m = 9 then 243 else
    if m = 10 then 273 else if m = 11 then 304 else 334
  if leap ∧ 3 ≤ m then base + 1 else base

/-- Proleptic Gregorian ordinal, as `datetime.toordinal` (day 1 = 0001-01-01);
the `.days` of a date subtraction is the difference of ordinals. -/
def dateOrdinal (dt : PyDate) : ℕ :=
  let a := dt.y - 1
  365 * a + a / 4 + a / 400 + daysBeforeMonth dt.m (isLeap dt.y) + dt.d - a / 100

/-- The day component of strptime's `%d`, regex `3[01]|[12]\d|0[1-9]|[1-9]`,
alternatives tried in order; returns the day and the unconsumed remainder. -/
def dayMatch (s : List Char) : Option (ℕ × List Char) :=
  match s with
  | [] => none
  | c :: r =>
    match r with
    | c2 :: r2 =>
      if c = '3' ∧ (c2 = '0' ∨ c2 = '1') then some (30 + digitVal c2, r2)
      else if (c = '1' ∨ c = '2') ∧ isDigitChar c2 then some (digitVal c * 10 + digitVal c2, r2)
      else if c = '0' ∧ isDigitChar c2 ∧ c2 ≠ '0' then some (digitVal c2, r2)
      else if isDigitChar c ∧ c ≠ '0' then some (digitVal c, r)
      else none
    | [] => if isDigitChar c ∧ c ≠ '0' then some (digitVal c, r) else none

/-- The literal `-` separator followed by the `%d` pattern. -/
def matchSepDay (rest : List Char) : Option (ℕ × List Char) :=
  match rest with
  | '-' :: r => dayMatch r
  | _ => none

/-- The `%m-%d` tail of the format: month regex `1[0-2]|0[1-9]|[1-9]` with
regex backtracking (a two-character month alternative is abandoned when the
following `-%d` cannot match, falling back to the one-character alternative),
then `-` and the day. Returns `(month, day, remainder)`. -/
def monthSepDay (s : List Char) : Option (ℕ × ℕ × List Char) :=
  let try1 : Option (ℕ × ℕ × List Char) :=
    match s with
    | c :: r =>
      if isDigitChar c ∧ c ≠ '0' then
        match matchSepDay r with
        | some (d, rem) => some (digitVal c, d, rem)
        | none => none
      else none
    | [] => none
  match s with
  | c :: c2 :: r2 =>
    if c = '1' ∧ (c2 = '0' ∨ c2 = '1' ∨ c2 = '2') then
      match matchSepDay r2 with
      | some (d, rem) => some (10 + digitVal c2, d, rem)
      | none => try1
    else if c = '0' ∧ isDigitChar c2 ∧ c2 ≠ '0' then
      match matchSepDay r2 with
      | some (d, rem) => some (digitVal c2, d, rem)
      | none => try1
    else try1
  | _ => try1

/-- `datetime.strptime(s, '%Y-%m-%d')`: `%Y` is four digits, literal `-`,
month and day per their patterns, the whole string must be consumed
("unconverted data remains" otherwise), and `datetime` validates
`MINYEAR ≤ y` and the day against the month's length.  `none` is the
`ValueError` raise. -/
def parseYMD (s : List Char) : Option PyDate :=
  match s with
  | c1 :: c2 :: c3 :: c4 :: '-' :: rest =>
    if isDigitChar c1 ∧ isDigitChar c2 ∧ isDigitChar c3 ∧ isDigitChar c4 then
      let y := natOfDigits [c1, c2, c3, c4]
      match monthSepDay rest with
      | some (m, d, rem) =>
        if rem = [] ∧ 1 ≤ y ∧ d ≤ daysInMonth y m then some ⟨y, m, d⟩ else none
      | none => none
    else none
  | _ => none

/-! ## Fetcher state, queries, raw results -/

/-- The configuration `__init__` actually stores on `self`. -/
structure FetcherCfg where
  requestDelay : ℚ
  maxRetries : ℕ
  retryDelay : ℚ
  mode : List Char
  maxConcurrent : ℕ
  deriving DecidableEq, Repr

/-- `GoogleFlightsFetcher.__init__`: note that the `max_direct_durations`
argument is accepted (and documented) but never stored on the instance —
it does not appear in the resulting state. -/
def initFetcher (requestDelay : ℚ) (maxRetries : ℕ) (retryDelay : ℚ)
    (mode : List Char) (maxDirectDurations : List (List Char × ℕ))
    (maxConcurrent : ℕ) : FetcherCfg :=
  { requestDelay := requestDelay, maxRetries := maxRetries, retryDelay := retryDelay,
    mode := mode, maxConcurrent := maxConcurrent }

/-- One raw offer as surfaced by the fast-flights collaborator
(`getattr(flight, …)` fields, all loosely typed). -/
structure RawFlight where
  name : List Char
  price : List Char
  duration : List Char
  stops : StopsInfo
  departure : List Char
  arrival : List Char
  deriving DecidableEq, Repr

/-- A fetch attempt's result: `none` for a falsy or `flights`-less result
object, otherwise the raw offer list. -/
abbrev RawResult := Option (List RawFlight)

/-- The exceptions distinguished by the spec's taxonomy; the code's
`except Exception` treats them all alike. -/
inductive PyExc where
  | fetchError
  | rateLimitError
  | valueError
  | otherError
  deriving DecidableEq, Repr

/-- One (route, date) query with its search parameters. -/
structure Query where
  origin : List Char
  destination : List Char
  departureDate : List Char
  seatClass : List Char
  adults : ℕ
  children : ℕ
  maxOffers : ℕ
  deriving DecidableEq, Repr

/-- The `SEAT_CLASSES` mapping. -/
def seatClassTable : List (List Char × List Char) :=
  [("economy".data, "ECONOMY".data),
   ("premium-economy".data, "PREMIUM_ECONOMY".data),
   ("business".data, "BUSINESS".data),
   ("first".data, "FIRST".data)]

/-- Seat-class normalization in `fetch_flight_offers`: lowercase (falsy →
`economy`), unknown keys → `economy`, then map through `SEAT_CLASSES`. -/
def seatLabel (seatClass : List Char) : List Char :=
  let seat := if seatClass = [] then "economy".data else lowerList seatClass
  match seatClassTable.lookup seat with
  | some lbl => lbl
  | none => "ECONOMY".data

/-- Airline cleanup: falsy name → `Unknown`; when a comma is present keep
the stripped text before the first comma. -/
def cleanAirline (name : List Char) : List Char :=
  let airline := if name = [] then "Unknown".data else name
  if hasSub [','] airline then stripList (airline.takeWhile (· ≠ ','))
  else airline

/-- The canonical output record (schema `SCHEMA`). -/
structure NormalizedOffer where
  origin : List Char
  destination : List Char
  departureDate : List Char
  queryDate : PyDate
  daysBeforeDeparture : ℤ
  airline : List Char
  price : ℚ
  currency : List Char
  stops : ℤ
  flightDuration : ℕ
  cabin : List Char
  offerRank : ℕ
  departureTime : List Char
  arrivalTime : List Char
  source : List Char
  deriving DecidableEq, Repr

/-- Assembly of one offer dictionary from one raw flight (the loop body of
`fetch_flight_offers`). -/
def mkOffer (q : Query) (today : PyDate) (daysBefore : ℤ) (f : RawFlight)
    (rank : ℕ) : NormalizedOffer :=
  let pc := parsePrice f.price
  { origin := upperList q.origin
    destination := upperList q.destination
    departureDate := q.departureDate
    queryDate := today
    daysBeforeDeparture := daysBefore
    airline := cleanAirline f.name
    price := pc.1
    currency := pc.2
    stops := parseStops f.stops
    flightDuration := parseDuration (if f.duration = [] then [] else f.duration)
    cabin := seatLabel q.seatClass
    offerRank := rank
    departureTime := f.departure
    arrivalTime := f.arrival
    source := "google_flights".data }

/-- `enumerate(·, start=n)`. -/
def enumFrom (n : ℕ) : List α → List (ℕ × α)
  | [] => []
  | a :: as => (n, a) :: enumFrom (n + 1) as

/-- The assembly loop, carrying the running 1-based rank. -/
def assembleGo (q : Query) (today : PyDate) (daysBefore : ℤ) :
    ℕ → List RawFlight → List NormalizedOffer
  | _, [] => []
  | rank, f :: fs => mkOffer q today daysBefore f rank :: assembleGo q today daysBefore (rank + 1) fs

/-- `for rank, flight in enumerate(result.flights[:max_offers], start=1)`. -/
def assembleOffers (q : Query) (today : PyDate) (daysBefore : ℤ)
    (flights : List RawFlight) : List NormalizedOffer :=
  assembleGo q today daysBefore 1 (flights.take q.maxOffers)

/-! ## Retry loop and fetch pipeline -/

/-- The retry loop over `range(max_retries + 1)`: `attempts i` is the outcome
of the i-th call to the fetch collaborator.  Any exception with fuel left
continues the loop; on the last attempt it is re-raised. -/
def retryGo (attempts : ℕ → Except PyExc RawResult) : ℕ → ℕ → Except PyExc RawResult
  | i, 0 => attempts i
  | i, fuel + 1 =>
    match attempts i with
    | .ok v => .ok v
    | .error _ => retryGo attempts (i + 1) fuel

/-- `for attempt in range(self.max_retries + 1): …`. -/
def retryLoop (maxRetries : ℕ) (attempts : ℕ → Except PyExc RawResult) :
    Except PyExc RawResult :=
  retryGo attempts 0 maxRetries

/-- The backoff sleeps performed before the loop either breaks or re-raises:
`retry_delay * 2 ** attempt` for each failed attempt that still had fuel. -/
def backoffGo (delay : ℚ) (attempts : ℕ → Except PyExc RawResult) : ℕ → ℕ → List ℚ
  | _, 0 => []
  | i, fuel + 1 =>
    match attempts i with
    | .ok _ => []
    | .error _ => delay * 2 ^ i :: backoffGo delay attempts (i + 1) fuel

/-- All backoff waits of one query's retry loop. -/
def backoffWaits (delay : ℚ) (maxRetries : ℕ)
    (attempts : ℕ → Except PyExc RawResult) : List ℚ :=
  backoffGo delay attempts 0 maxRetries

/-- `fetch_flight_offers` (and the identically-structured
`fetch_flight_offers_async`): the departure date is parsed *before* the
`try:` block, so a malformed date raises `ValueError`; past dates return `[]`;
inside the `try`, retry exhaustion or any other failure is caught by the
catch-all and degrades to `[]`; otherwise the truncated raw list is assembled.
`today` stands for `datetime.now()`'s date; `attempts` is the external fetch
collaborator's behaviour on successive calls. -/
def fetchFlightOffers (cfg : FetcherCfg) (q : Query) (today : PyDate)
    (attempts : ℕ → Except PyExc RawResult) : Except PyExc (List NormalizedOffer) :=
  match parseYMD q.departureDate with
  | none => .error .valueError
  | some dep =>
    let daysBefore : ℤ := (dateOrdinal dep : ℤ) - (dateOrdinal today : ℤ)
    if daysBefore < 0 then .ok []
    else
      match retryLoop cfg.maxRetries attempts with
      | .error _ => .ok []
      | .ok none => .ok []
      | .ok (some flights) =>
        if flights = [] then .ok []
        else .ok (assembleOffers q today daysBefore flights)

/-- Degraded view of one gathered task result, as the collection loop of
`fetch_multiple_routes_async` treats it: an exception contributes nothing. -/
def exceptToList (r : Except PyExc (List NormalizedOffer)) : List NormalizedOffer :=
  match r with
  | .ok l => l
  | .error _ => []

/-- `fetch_multiple_routes_async`: one task per (route, date) in outer-route /
inner-date order, numbered from 1; `asyncio.gather(…, return_exceptions=True)`
hands the collection loop each task's value or captured exception, and the
loop extends the accumulator only with non-exception results.
`oracle n` is the fetch collaborator's behaviour for task `n`. -/
def fetchMultipleRoutesAsync (cfg : FetcherCfg) (routes : List (List Char × List Char))
    (dates : List (List Char)) (seatClass : List Char) (adults : ℕ)
    (maxOffersPerSearch : ℕ) (today : PyDate)
    (oracle : ℕ → ℕ → Except PyExc RawResult) : List NormalizedOffer :=
  let pairs := routes.flatMap (fun r => dates.map (fun d => (r, d)))
  let tasks := enumFrom 1 pairs
  let results := tasks.map (fun t =>
    fetchFlightOffers cfg
      { origin := t.2.1.1, destination := t.2.1.2, departureDate := t.2.2,
        seatClass := seatClass, adults := adults, children := 0,
        maxOffers := maxOffersPerSearch } today (oracle t.1))
  results.foldl (fun acc r =>
    match r with
    | .ok l => acc ++ l
    | .error _ => acc) []

/-! ## Dataset sink (`save_to_csv`) -/

/-- One line of the CSV destination. -/
inductive CsvLine where
  | header
  | row (o : NormalizedOffer)
  deriving DecidableEq, Repr

/-- `save_to_csv` acting on the destination file's contents (`none` = the
file does not exist).  Empty offer lists return before touching the file;
mode is `'a'` only when appending to an existing file; the header is written
when the mode is `'w'` or the file did not exist. -/
def saveToCsv (offers : List NormalizedOffer) (dest : Option (List CsvLine))
    (append : Bool) : Option (List CsvLine) :=
  if offers = [] then dest
  else
    let fileExists := dest.isSome
    let modeW := !(append && fileExists)
    let base := if modeW then [] else dest.getD []
    let withHeader := if modeW || !fileExists then base ++ [CsvLine.header] else base
    some (withHeader ++ offers.map CsvLine.row)

/-! ## Spec-modelled stop inference (absent from the code) -/

/-- Modelled from the spec: the stop-inference fallback of §4.1, which
`fetch_flight_offers` never applies even though `__init__` accepts and
documents `max_direct_durations` and the assembly comments say the duration
is "needed for stops inference".  Routes are keyed in the config's
`"XXX-YYY"` format; a recorded route infers 0 stops within its
maximum-direct-duration and 1 above it; an absent route uses the fixed
240-minute threshold. -/
def inferStopsSpec (profile : List (List Char × ℕ)) (routeKey : List Char)
    (durationMin : ℕ) : ℤ :=
  match profile.lookup routeKey with
  | some maxDirect => if durationMin ≤ maxDirect then 0 else 1
  | none => if durationMin ≤ 240 then 0 else 1

/-- Modelled from the spec: the final stops value after the fallback (parser
returned −1) and the sanity override (parser returned 0 but the duration
exceeds 360 minutes). -/
def finalStopsSpec (profile : List (List Char × ℕ)) (routeKey : List Char)
    (durationMin : ℕ) (parsed : ℤ) : ℤ :=
  if parsed = -1 then inferStopsSpec profile routeKey durationMin
  else if parsed = 0 ∧ 360 < durationMin then inferStopsSpec profile routeKey durationMin
  else parsed

/-- Header recognizer for counting lines of a written file. -/
def isHeaderLine : CsvLine → Bool
  | .header => true
  | .row _ => false

/-! ## Concrete fixtures used by witnesses and counterexamples -/

/-- A valid query: AMS → CDG one day after the query date. -/
def qFix : Query :=
  ⟨"ams".data, "cdg".data, "2026-01-02".data, "economy".data, 1, 0, 5⟩

/-- The same query with a malformed departure date. -/
def qBadDate : Query :=
  ⟨"ams".data, "cdg".data, "2026/01/02".data, "economy".data, 1, 0, 5⟩

/-- A raw offer whose stops field is `None` (the parser returns −1) and whose
duration text parses to 90 minutes. -/
def flightFix : RawFlight :=
  ⟨"KLM".data, "$100".data, "1 hr 30 min".data, .noneV, "8 AM".data, "10 AM".data⟩

/-- A raw offer whose stops field is the raw integer −5. -/
def flightNegStops : RawFlight :=
  ⟨"KLM".data, "$100".data, "1 hr 30 min".data, .int (-5), "8 AM".data, "10 AM".data⟩

/-- A route-duration profile recording a 100-minute maximum direct duration
for the AMS/CDG route. -/
def profileFix : List (List Char × ℕ) := [("AMS-CDG".data, 100)]

/-- A fetcher configured with that profile (which `initFetcher` drops). -/
def cfgFix : FetcherCfg := initFetcher 2 3 10 "local".data profileFix 3

/-- The query date used by the fixtures. -/
def todayFix : PyDate := ⟨2026, 1, 1⟩

/-- A fetch collaborator that always succeeds with one raw offer. -/
def attemptsOk : ℕ → Except PyExc RawResult := fun _ => .ok (some [flightFix])

/-- One assembled offer, used by the sink witness. -/
def offerFix : NormalizedOffer := mkOffer qFix todayFix 1 flightFix 1

/-! ## General lemmas about the string embedding -/

theorem isPrefixOf_mem {n h : List Char} (hp : n.isPrefixOf h = true) :
    ∀ c ∈ n, c ∈ h := by
  induction n generalizing h with
  | nil => intro c hc; cases hc
  | cons a t ih =>
    cases h with
    | nil => simp [List.isPrefixOf] at hp
    | cons b h' =>
      simp only [List.isPrefixOf, Bool.and_eq_true, beq_iff_eq] at hp
      intro c hc
      rcases List.mem_cons.mp hc with rfl | hc'
      · exact hp.1 ▸ List.mem_cons_self _ _
      · exact List.mem_cons_of_mem _ (ih hp.2 c hc')

theorem hasSub_subset {n h : List Char} (hs : hasSub n h = true) :
    ∀ c ∈ n, c ∈ h := by
  induction h with
  | nil =>
    intro c hc
    exfalso
    cases n with
    | nil => cases hc
    | cons a t => simp [hasSub, List.isPrefixOf] at hs
  | cons a t ih =>
    intro c hc
    rw [hasSub, Bool.or_eq_true] at hs
    rcases hs with hp | hrest
    · exact isPrefixOf_mem hp c hc
    · exact List.mem_cons_of_mem a (ih hrest c hc)

theorem hasSub_singleton_of_mem {c : Char} {l : List Char} (hm : c ∈ l) :
    hasSub [c] l = true := by
  induction l with
  | nil => cases hm
  | cons a t ih =>
    rw [hasSub, Bool.or_eq_true]
    rcases List.mem_cons.mp hm with rfl | hm'
    · left; simp [List.isPrefixOf]
    · right; exact ih hm'

theorem isDigitChar_cases {c : Char} (hd : isDigitChar c = true) :
    c = '0' ∨ c = '1' ∨ c = '2' ∨ c = '3' ∨ c = '4' ∨
    c = '5' ∨ c = '6' ∨ c = '7' ∨ c = '8' ∨ c = '9' := by
  have h := hd
  simp only [isDigitChar, Bool.or_eq_true, decide_eq_true_eq] at h
  tauto

theorem pyLowerChar_digit {c : Char} (hd : isDigitChar c = true) : pyLowerChar c = c := by
  rcases isDigitChar_cases hd with rfl|rfl|rfl|rfl|rfl|rfl|rfl|rfl|rfl|rfl <;> decide

theorem isSpaceChar_digit {c : Char} (hd : isDigitChar c = true) : isSpaceChar c = false := by
  rcases isDigitChar_cases hd with rfl|rfl|rfl|rfl|rfl|rfl|rfl|rfl|rfl|rfl <;> decide

theorem dropWhile_eq_self {p : Char → Bool} {l : List Char}
    (h : ∀ c ∈ l, p c = false) : l.dropWhile p = l := by
  cases l with
  | nil => rfl
  | cons a t =>
    rw [List.dropWhile_cons, h a (List.mem_cons_self a t)]
    simp

theorem stripList_eq_self {l : List Char} (h : ∀ c ∈ l, isSpaceChar c = false) :
    stripList l = l := by
  unfold stripList
  rw [dropWhile_eq_self h, dropWhile_eq_self
    (by intro c hc; exact h c (List.mem_reverse.mp hc)), List.reverse_reverse]

theorem mem_stripList {c : Char} {l : List Char} (hm : c ∈ l)
    (hns : isSpaceChar c = false) : c ∈ stripList l := by
  have key : ∀ (l' : List Char), c ∈ l' → c ∈ l'.dropWhile isSpaceChar := by
    intro l' hm'
    induction l' with
    | nil => cases hm'
    | cons a t ih =>
      rw [List.dropWhile_cons]
      by_cases ha : isSpaceChar a = true
      · rw [ha]
        simp only [if_true]
        rcases List.mem_cons.mp hm' with rfl | hm''
        · rw [ha] at hns; cases hns
        · exact ih hm''
      · simp only [Bool.not_eq_true] at ha
        rw [ha]
        simpa using hm'
  unfold stripList
  rw [List.mem_reverse]
  exact key _ (List.mem_reverse.mpr (key _ hm))

theorem isDigitString_parts {s : List Char} (h : isDigitString s = true) :
    s ≠ [] ∧ ∀ c ∈ s, isDigitChar c = true := by
  rw [isDigitString, Bool.and_eq_true] at h
  refine ⟨?_, ?_⟩
  · intro he; subst he; simp at h
  · intro c hc; exact List.all_eq_true.mp h.2 c hc

theorem mem_lower_digits {t : List Char} (ht : ∀ c ∈ t, isDigitChar c = true)
    {x : Char} (hx : x ∈ lowerList t) : isDigitChar x = true := by
  rcases List.mem_map.mp hx with ⟨c, hc, rfl⟩
  rw [pyLowerChar_digit (ht c hc)]
  exact ht c hc

theorem digits_excl {t : List Char} (htd : isDigitString t = true) :
    hasSub "nonstop".data (lowerList t) = false ∧
    hasSub "direct".data (lowerList t) = false ∧
    lowerList t ≠ "unknown".data := by
  obtain ⟨-, hall⟩ := isDigitString_parts htd
  refine ⟨?_, ?_, ?_⟩
  · by_contra hb
    rw [Bool.not_eq_false] at hb
    have hn : 'n' ∈ lowerList t := hasSub_subset hb 'n' (by decide)
    exact absurd (mem_lower_digits hall hn) (by decide)
  · by_contra hb
    rw [Bool.not_eq_false] at hb
    have hn : 'd' ∈ lowerList t := hasSub_subset hb 'd' (by decide)
    exact absurd (mem_lower_digits hall hn) (by decide)
  · intro he
    have hn : 'u' ∈ lowerList t := by rw [he]; decide
    exact absurd (mem_lower_digits hall hn) (by decide)

/-! ## Claim C8: the stops parser -/

/-- Claim C8: for every stops input, an integer passes through unchanged; a
string containing `nonstop` or `direct` case-insensitively yields 0; a bare
digit string yields that integer; a string matching `<N> stop(s)` (when no
earlier rule of the parser's cascade applies) yields N; `unknown`, an empty
value, or any other unparsable string yields −1; and in particular
`"Nonstop"` → 0, `"2 stops"` → 2, integer 1 → 1, `"Unknown"` → −1. -/
theorem c8_stops_rules :
    (∀ n : ℤ, parseStops (.int n) = n) ∧
    (∀ s : List Char,
      hasSub "nonstop".data (lowerList (stripList s)) = true ∨
      hasSub "direct".data (lowerList (stripList s)) = true →
      parseStops (.str s) = 0) ∧
    (∀ s : List Char, isDigitString s = true →
      parseStops (.str s) = (natOfDigits s : ℤ)) ∧
    (∀ (s : List Char) (n : ℕ),
      isDigitString (stripList s) = false →
      hasSub "nonstop".data (lowerList (stripList s)) = false →
      hasSub "direct".data (lowerList (stripList s)) = false →
      lowerList (stripList s) ≠ "unknown".data →
      searchNumLit "stop".data (lowerList (stripList s)) = some n →
      parseStops (.str s) = (n : ℤ)) ∧
    (∀ s : List Char, lowerList (stripList s) = "unknown".data →
      parseStops (.str s) = -1) ∧
    parseStops (.str []) = -1 ∧
    parseStops .noneV = -1 ∧
    (∀ s : List Char, s ≠ [] →
      isDigitString (stripList s) = false →
      hasSub "nonstop".data (lowerList (stripList s)) = false →
      hasSub "direct".data (lowerList (stripList s)) = false →
      lowerList (stripList s) ≠ "unknown".data →
      searchNumLit "stop".data (lowerList (stripList s)) = none →
      parseStops (.str s) = -1) ∧
    parseStops (.str "Nonstop".data) = 0 ∧
    parseStops (.str "2 stops".data) = 2 ∧
    parseStops (.int 1) = 1 ∧
    parseStops (.str "Unknown".data) = -1 := by
  refine ⟨fun n => rfl, ?_, ?_, ?_, ?_, rfl, rfl, ?_, by decide, by decide, rfl, by decide⟩
  · intro s hor
    have hne : s ≠ [] := by
      rintro rfl
      rcases hor with h | h <;> exact absurd h (by decide)
    have hnd : isDigitString (stripList s) = false := by
      by_contra hb
      rw [Bool.not_eq_false] at hb
      obtain ⟨h1, h2, h3⟩ := digits_excl hb
      rcases hor with h | h
      · rw [h1] at h; cases h
      · rw [h2] at h; cases h
    simp only [parseStops, if_neg hne, hnd, Bool.false_eq_true, if_false]
    rw [if_pos]
    rcases hor with h | h
    · exact Or.inl h
    · exact Or.inr h
  · intro s h
    obtain ⟨hne, hall⟩ := isDigitString_parts h
    have hstrip : stripList s = s :=
      stripList_eq_self (fun c hc => isSpaceChar_digit (hall c hc))
    simp only [parseStops, if_neg hne, hstrip, h, if_true]
  · intro s n hnd hn1 hn2 hn3 hsearch
    have hne : s ≠ [] := by
      rintro rfl
      simp [stripList, lowerList, searchNumLit] at hsearch
    simp only [parseStops, if_neg hne, hnd, Bool.false_eq_true, if_false]
    rw [if_neg, if_neg hn3, hsearch]
    rw [hn1, hn2]
    simp
  · intro s hu
    have hne : s ≠ [] := by
      rintro rfl
      exact absurd hu (by decide)
    have hnd : isDigitString (stripList s) = false := by
      by_contra hb
      rw [Bool.not_eq_false] at hb
      exact absurd hu (digits_excl hb).2.2
    simp only [parseStops, if_neg hne, hnd, Bool.false_eq_true, if_false]
    rw [if_neg, if_pos hu]
    rw [hu]
    decide
  · intro s hne hnd hn1 hn2 hn3 hsearch
    simp only [parseStops, if_neg hne, hnd, Bool.false_eq_true, if_false]
    rw [if_neg, if_neg hn3, hsearch]
    rw [hn1, hn2]
    simp

/-- Witness for C8: the parser's rules applied at concrete inputs. -/
theorem c8_stops_rules_witness :
    parseStops (.str "DIRECT flight".data) = 0 ∧
    parseStops (.str "7".data) = (natOfDigits "7".data : ℤ) ∧
    parseStops (.str " 1 stop ".data) = ((1 : ℕ) : ℤ) ∧
    parseStops (.str "unknown".data) = -1 ∧
    parseStops (.str "mystery value".data) = -1 :=
  ⟨c8_stops_rules.2.1 "DIRECT flight".data (Or.inr (by decide)),
   c8_stops_rules.2.2.1 "7".data (by decide),
   c8_stops_rules.2.2.2.1 " 1 stop ".data 1 (by decide) (by decide) (by decide)
     (by decide) (by decide),
   c8_stops_rules.2.2.2.2.1 "unknown".data (by decide),
   c8_stops_rules.2.2.2.2.2.2.2.1 "mystery value".data (by decide) (by decide)
     (by decide) (by decide) (by decide) (by decide)⟩

/-! ## Claim C9: the duration parser -/

/-- Claim C9: the duration parser extracts an optional hours component
(`hr|hour|h`) and an optional minutes component (`min|minute|m`), each
defaulting to 0 when absent, and returns `hours*60+minutes`; empty or
unparsable input returns 0 (the function is total, so it never raises).
In particular `"2 hr 30 min"` → 150, `"1h"` → 60, `"45m"` → 45, `""` → 0. -/
theorem c9_duration_rules :
    (∀ s : List Char,
      parseDuration s =
        (searchNumLit ['h'] (stripList (lowerList s))).getD 0 * 60 +
        (searchNumLit ['m'] (stripList (lowerList s))).getD 0) ∧
    parseDuration "2 hr 30 min".data = 150 ∧
    parseDuration "1h".data = 60 ∧
    parseDuration "45m".data = 45 ∧
    parseDuration [] = 0 ∧
    parseDuration "no numbers here".data = 0 := by
  refine ⟨?_, by decide, by decide, by decide, rfl, by decide⟩
  intro s
  by_cases hs : s = []
  · subst hs; decide
  · simp only [parseDuration, if_neg hs]

/-! ## Claim C5: the stops invariant (corrected) -/

/-- Claim C5 counterexample: the stops parser passes raw integers through
unchanged, so the raw integer −5 flows into a constructed NormalizedOffer as
−5, which is neither ≥ 0 nor −1, refuting the claimed invariant over all raw
integer inputs. -/
theorem c5_stops_counterexample :
    parseStops (.int (-5)) = -5 ∧
    (assembleOffers qFix todayFix 1 [flightNegStops]).map (fun o => o.stops) = [-5] ∧
    ¬((-5 : ℤ) ≥ 0 ∨ (-5 : ℤ) = -1) := by
  refine ⟨rfl, ?_, by decide⟩
  decide

/-- Claim C5 amended: for string and `None` stops inputs the parsed value is
≥ 0 or exactly −1, but integer inputs pass through unchanged, so any integer
(in particular negatives other than −1) can appear in a constructed offer. -/
theorem c5_stops_amended :
    (∀ s : List Char, parseStops (.str s) ≥ 0 ∨ parseStops (.str s) = -1) ∧
    parseStops .noneV = -1 ∧
    (∀ n : ℤ, parseStops (.int n) = n) := by
  refine ⟨?_, rfl, fun n => rfl⟩
  intro s
  by_cases hs : s = []
  · subst hs; right; rfl
  · simp only [parseStops, if_neg hs]
    by_cases hd : isDigitString (stripList s) = true
    · rw [if_pos hd]
      left
      exact Int.natCast_nonneg _
    · rw [if_neg hd]
      by_cases hns : hasSub "nonstop".data (lowerList (stripList s)) = true ∨
          hasSub "direct".data (lowerList (stripList s)) = true
      · rw [if_pos hns]
        left
        decide
      · rw [if_neg hns]
        by_cases hu : lowerList (stripList s) = "unknown".data
        · rw [if_pos hu]
          right
          rfl
        · rw [if_neg hu]
          cases hsr : searchNumLit "stop".data (lowerList (stripList s)) with
          | some n =>
            left
            exact Int.natCast_nonneg _
          | none =>
            right
            rfl

/-! ## Claim C2: currency symbol priority (corrected) -/

/-- Claim C2 counterexample: the symbol table is scanned in insertion order
with the generic `$` first, so `"A$299"` and `"C$50"` — both containing the
multi-character symbols the claim says win — come back as USD, not AUD/CAD. -/
theorem c2_currency_counterexample :
    hasSub "A$".data "A$299".data = true ∧
    parsePrice "A$299".data = (299, "USD".data) ∧
    hasSub "C$".data "C$50".data = true ∧
    parsePrice "C$50".data = (50, "USD".data) ∧
    "USD".data ≠ "AUD".data ∧ "USD".data ≠ "CAD".data := by
  refine ⟨by decide, by decide, by decide, by decide, by decide, by decide⟩

/-- Claim C2 amended: the symbols are tested in the table's insertion order,
in which the generic `$` precedes `A$` and `C$`; hence every input containing
`$` — in particular every input containing `A$` or `C$` — is reported as USD,
and the AUD/CAD entries are unreachable. -/
theorem c2_currency_amended :
    (∀ s : List Char, '$' ∈ s → (parsePrice s).2 = "USD".data) ∧
    (∀ s : List Char, hasSub "A$".data s = true → (parsePrice s).2 = "USD".data) ∧
    (∀ s : List Char, hasSub "C$".data s = true → (parsePrice s).2 = "USD".data) := by
  have main : ∀ s : List Char, '$' ∈ s → (parsePrice s).2 = "USD".data := by
    intro s hm
    have hne : s ≠ [] := by rintro rfl; cases hm
    have hsub : hasSub "$".data (stripList s) = true :=
      hasSub_singleton_of_mem (mem_stripList hm (by decide))
    simp only [parsePrice, if_neg hne, findCurrency, currencySymbols, hsub, if_true]
  exact ⟨main,
    fun s h => main s (hasSub_subset h '$' (by decide)),
    fun s h => main s (hasSub_subset h '$' (by decide))⟩

/-- Witness for the amended C2: concrete inputs holding `$`, `A$` and `C$`
all come back as USD. -/
theorem c2_currency_amended_witness :
    (parsePrice "$15".data).2 = "USD".data ∧
    (parsePrice "A$299".data).2 = "USD".data ∧
    (parsePrice "C$50".data).2 = "USD".data :=
  ⟨c2_currency_amended.1 "$15".data (by decide),
   c2_currency_amended.2.1 "A$299".data (by decide),
   c2_currency_amended.2.2 "C$50".data (by decide)⟩

/-! ## Retry-loop lemmas -/

theorem retryGo_ok (att : ℕ → Except PyExc RawResult) :
    ∀ (fuel i k : ℕ) (v : RawResult), k ≤ fuel → att (i + k) = .ok v →
      (∀ j, j < k → ∃ e, att (i + j) = .error e) → retryGo att i fuel = .ok v := by
  intro fuel
  induction fuel with
  | zero =>
    intro i k v hk hok _
    have hk0 : k = 0 := Nat.le_zero.mp hk
    subst hk0
    simpa [retryGo] using hok
  | succ fuel ih =>
    intro i k v hk hok hfail
    cases k with
    | zero =>
      have h0 : att i = .ok v := by simpa using hok
      simp [retryGo, h0]
    | succ k' =>
      obtain ⟨e, he⟩ := hfail 0 (Nat.succ_pos k')
      have he' : att i = .error e := by simpa using he
      simp only [retryGo, he']
      exact ih (i + 1) k' v (Nat.succ_le_succ_iff.mp hk)
        (by rw [show i + 1 + k' = i + (k' + 1) by omega]; exact hok)
        (fun j hj => by
          rw [show i + 1 + j = i + (j + 1) by omega]
          exact hfail (j + 1) (Nat.succ_lt_succ hj))

theorem retryGo_allFail (att : ℕ → Except PyExc RawResult) :
    ∀ (fuel i : ℕ), (∀ k, k ≤ fuel → ∃ e, att (i + k) = .error e) →
      retryGo att i fuel = att (i + fuel) := by
  intro fuel
  induction fuel with
  | zero => intro i _; simp [retryGo]
  | succ fuel ih =>
    intro i h
    obtain ⟨e, he⟩ := h 0 (Nat.zero_le _)
    have he' : att i = .error e := by simpa using he
    simp only [retryGo, he']
    rw [ih (i + 1) (fun k hk => by
      rw [show i + 1 + k = i + (k + 1) by omega]
      exact h (k + 1) (Nat.succ_le_succ hk))]
    congr 1
    omega

/-! ## Claim C3: which exceptions are retried (corrected) -/

/-- Claim C3 counterexample: the loop catches bare `Exception`, so a
ValueError — neither a FetchError nor a RateLimitError — raised on attempt 0
is not terminal for the query: a backoff wait of `retry_delay * 2^0` is
performed, the fetch is retried, and the second attempt's success is
returned. -/
theorem c3_retry_counterexample :
    retryLoop 3 (fun i => if i = 0 then .error .valueError else .ok (some [])) =
      .ok (some []) ∧
    (fun i => if i = 0 then (.error .valueError : Except PyExc RawResult)
      else .ok (some [])) 0 = .error .valueError ∧
    backoffWaits 10 3 (fun i => if i = 0 then .error .valueError else .ok (some [])) =
      [10] := by
  refine ⟨rfl, rfl, ?_⟩
  norm_num [backoffWaits, backoffGo]

/-- Claim C3 amended: the retry loop treats every exception from the fetch
collaborator as retryable — backoff-and-retry fires whenever attempts remain,
whatever the exception's type — and an exception is terminal for the query
only when it occurs on the final attempt (retry exhaustion). -/
theorem c3_retry_amended :
    (∀ (m : ℕ) (att : ℕ → Except PyExc RawResult) (k : ℕ) (v : RawResult),
      k ≤ m → att k = .ok v → (∀ j, j < k → ∃ e, att j = .error e) →
      retryLoop m att = .ok v) ∧
    (∀ (m : ℕ) (att : ℕ → Except PyExc RawResult),
      (∀ k, k ≤ m → ∃ e, att k = .error e) → retryLoop m att = att m) := by
  constructor
  · intro m att k v hk hok hfail
    exact retryGo_ok att m 0 k v hk (by simpa using hok)
      (fun j hj => by simpa using hfail j hj)
  · intro m att h
    unfold retryLoop
    rw [retryGo_allFail att m 0 (fun k hk => by simpa using h k hk)]
    simp

/-- Witness for the amended C3: two failures of a generic exception type are
retried through to the success on attempt 2, and a query whose every attempt
fails ends with the last attempt's exception. -/
theorem c3_retry_amended_witness :
    retryLoop 3 (fun i => if i < 2 then .error .otherError else .ok none) = .ok none ∧
    retryLoop 2 (fun _ => .error .otherError) = .error .otherError := by
  constructor
  · exact c3_retry_amended.1 3 _ 2 none (by omega) (by norm_num)
      (fun j hj => ⟨.otherError, by simp [hj]⟩)
  · exact c3_retry_amended.2 2 (fun _ => .error .otherError)
      (fun k _ => ⟨.otherError, rfl⟩)

/-! ## Claim C10: malformed departure dates raise -/

/-- Claim C10: the departure date is parsed before the `try` block, so for
every date string strptime rejects both fetch entry points raise `ValueError`
instead of returning an empty list, and the catch-all degradation to `[]`
applies only once date validation has succeeded (after which the function
always returns a list). -/
theorem c10_invalid_date :
    (∀ (cfg : FetcherCfg) (q : Query) (today : PyDate)
      (att : ℕ → Except PyExc RawResult),
      parseYMD q.departureDate = none →
      fetchFlightOffers cfg q today att = .error .valueError) ∧
    (∀ (cfg : FetcherCfg) (q : Query) (today : PyDate)
      (att : ℕ → Except PyExc RawResult) (dep : PyDate),
      parseYMD q.departureDate = some dep →
      ∃ l, fetchFlightOffers cfg q today att = .ok l) := by
  constructor
  · intro cfg q today att h
    unfold fetchFlightOffers
    rw [h]
  · intro cfg q today att dep h
    unfold fetchFlightOffers
    rw [h]
    dsimp only
    by_cases hd : (dateOrdinal dep : ℤ) - (dateOrdinal today : ℤ) < 0
    · exact ⟨[], by rw [if_pos hd]⟩
    · rw [if_neg hd]
      cases hr : retryLoop cfg.maxRetries att with
      | error e => exact ⟨[], rfl⟩
      | ok r =>
        cases r with
        | none => exact ⟨[], rfl⟩
        | some flights =>
          by_cases hf : flights = []
          · exact ⟨[], by dsimp only; rw [if_pos hf]⟩
          · exact ⟨_, by dsimp only; rw [if_neg hf]⟩

/-- Witness for C10: the malformed date `2026/01/02` raises, and a valid date
on the same query always comes back as a list. -/
theorem c10_invalid_date_witness :
    fetchFlightOffers cfgFix qBadDate todayFix attemptsOk = .error .valueError ∧
    (∃ l, fetchFlightOffers cfgFix qFix todayFix attemptsOk = .ok l) :=
  ⟨c10_invalid_date.1 cfgFix qBadDate todayFix attemptsOk (by decide),
   c10_invalid_date.2 cfgFix qFix todayFix attemptsOk ⟨2026, 1, 2⟩ (by decide)⟩

/-! ## Claim C4: batch isolation -/

theorem foldlCollect (rs : List (Except PyExc (List NormalizedOffer))) :
    ∀ acc, rs.foldl (fun acc r =>
        match r with
        | .ok l => acc ++ l
        | .error _ => acc) acc =
      acc ++ (rs.map exceptToList).flatten := by
  induction rs with
  | nil => intro acc; simp
  | cons r rs ih =>
    intro acc
    cases r with
    | ok l => simp [ih, exceptToList]
    | error e => simp [ih, exceptToList]

/-- Claim C4: the batch is the concatenation of the per-query offer lists
(each degraded to `[]` when its task's captured result is an exception), and a
query whose every attempt fails — retry exhaustion — contributes zero offers;
the batch function is total, so one query's failure never aborts it. -/
theorem c4_batch_isolation :
    (∀ (cfg : FetcherCfg) (routes : List (List Char × List Char))
       (dates : List (List Char)) (sc : List Char) (ad mo : ℕ) (today : PyDate)
       (oracle : ℕ → ℕ → Except PyExc RawResult),
      fetchMultipleRoutesAsync cfg routes dates sc ad mo today oracle =
        ((enumFrom 1 (routes.flatMap (fun r => dates.map (fun d => (r, d))))).map
          (fun t => exceptToList (fetchFlightOffers cfg
            ⟨t.2.1.1, t.2.1.2, t.2.2, sc, ad, 0, mo⟩ today (oracle t.1)))).flatten) ∧
    (∀ (cfg : FetcherCfg) (q : Query) (today : PyDate)
       (att : ℕ → Except PyExc RawResult),
      (∀ k, k ≤ cfg.maxRetries → ∃ e, att k = .error e) →
      exceptToList (fetchFlightOffers cfg q today att) = []) := by
  constructor
  · intro cfg routes dates sc ad mo today oracle
    unfold fetchMultipleRoutesAsync
    rw [foldlCollect]
    rw [List.map_map]
    simp only [List.nil_append]
    rfl
  · intro cfg q today att h
    cases hp : parseYMD q.departureDate with
    | none =>
      unfold fetchFlightOffers
      rw [hp]
      rfl
    | some dep =>
      unfold fetchFlightOffers
      rw [hp]
      dsimp only
      by_cases hd : (dateOrdinal dep : ℤ) - (dateOrdinal today : ℤ) < 0
      · rw [if_pos hd]
        rfl
      · rw [if_neg hd]
        have hr : retryLoop cfg.maxRetries att = att cfg.maxRetries := by
          unfold retryLoop
          rw [retryGo_allFail att cfg.maxRetries 0 (fun k hk => by simpa using h k hk)]
          simp
        obtain ⟨e, he⟩ := h cfg.maxRetries (le_refl _)
        rw [hr, he]
        rfl

/-- Witness for C4: a query whose four attempts (`max_retries = 3`) all fail
contributes an empty offer list. -/
theorem c4_batch_isolation_witness :
    exceptToList (fetchFlightOffers cfgFix qFix todayFix
      (fun _ => .error .rateLimitError)) = [] :=
  c4_batch_isolation.2 cfgFix qFix todayFix (fun _ => .error .rateLimitError)
    (fun k _ => ⟨.rateLimitError, rfl⟩)

/-! ## Claim C7: offer ranks and raw order -/

theorem assembleGo_length (q : Query) (today : PyDate) (db : ℤ) :
    ∀ (r : ℕ) (fs : List RawFlight),
      (assembleGo q today db r fs).length = fs.length := by
  intro r fs
  induction fs generalizing r with
  | nil => rfl
  | cons f fs ih => simp [assembleGo, ih]

theorem assembleGo_getElem (q : Query) (today : PyDate) (db : ℤ) :
    ∀ (fs : List RawFlight) (r i : ℕ) (h : i < fs.length)
      (h2 : i < (assembleGo q today db r fs).length),
      (assembleGo q today db r fs)[i] = mkOffer q today db fs[i] (r + i) := by
  intro fs
  induction fs with
  | nil => intro r i h _; exact absurd h (Nat.not_lt_zero i)
  | cons f fs ih =>
    intro r i h h2
    cases i with
    | zero => rfl
    | succ i' =>
      have h' : i' < fs.length := by simpa using h
      have h2' : i' < (assembleGo q today db (r + 1) fs).length := by
        rw [assembleGo_length]; exact h'
      calc (assembleGo q today db r (f :: fs))[i' + 1]
          = (assembleGo q today db (r + 1) fs)[i'] := by
            simp [assembleGo]
        _ = mkOffer q today db fs[i'] ((r + 1) + i') := ih (r + 1) i' h' h2'
        _ = mkOffer q today db (f :: fs)[i' + 1] (r + (i' + 1)) := by
            rw [List.getElem_cons_succ]
            congr 1
            omega

theorem assembleGo_map_rank (q : Query) (today : PyDate) (db : ℤ) :
    ∀ (r : ℕ) (fs : List RawFlight),
      (assembleGo q today db r fs).map (fun o => o.offerRank) =
        List.range' r fs.length := by
  intro r fs
  induction fs generalizing r with
  | nil => rfl
  | cons f fs ih =>
    simp only [assembleGo, List.map_cons, List.length_cons, List.range'_succ, ih]
    rfl

/-- Claim C7: the assembled offers are exactly the first
`min(max_offers, k)` raw offers in their original order, `offer_rank` is the
1-based position in that slice, and within one query's result the ranks are
the interval starting at 1 — hence every rank is ≥ 1 and they are pairwise
distinct, with no re-sorting by any field. -/
theorem c7_rank_assignment :
    (∀ (q : Query) (today : PyDate) (db : ℤ) (flights : List RawFlight),
      (assembleOffers q today db flights).length = min q.maxOffers flights.length) ∧
    (∀ (q : Query) (today : PyDate) (db : ℤ) (flights : List RawFlight),
      (assembleOffers q today db flights).map (fun o => o.offerRank) =
        List.range' 1 (assembleOffers q today db flights).length) ∧
    (∀ (q : Query) (today : PyDate) (db : ℤ) (flights : List RawFlight) (i : ℕ)
       (h1 : i < (assembleOffers q today db flights).length)
       (h2 : i < flights.length),
      (assembleOffers q today db flights)[i] = mkOffer q today db flights[i] (i + 1)) ∧
    (∀ (q : Query) (today : PyDate) (db : ℤ) (flights : List RawFlight),
      ((assembleOffers q today db flights).map (fun o => o.offerRank)).Nodup) ∧
    (∀ (q : Query) (today : PyDate) (db : ℤ) (flights : List RawFlight),
      ∀ o ∈ assembleOffers q today db flights, 1 ≤ o.offerRank) := by
  have hlen : ∀ (q : Query) (today : PyDate) (db : ℤ) (flights : List RawFlight),
      (assembleOffers q today db flights).length = min q.maxOffers flights.length := by
    intro q today db flights
    unfold assembleOffers
    rw [assembleGo_length, List.length_take]
  have hmap : ∀ (q : Query) (today : PyDate) (db : ℤ) (flights : List RawFlight),
      (assembleOffers q today db flights).map (fun o => o.offerRank) =
        List.range' 1 (assembleOffers q today db flights).length := by
    intro q today db flights
    unfold assembleOffers
    rw [assembleGo_map_rank, assembleGo_length]
  refine ⟨hlen, hmap, ?_, ?_, ?_⟩
  · intro q today db flights i h1 h2
    unfold assembleOffers at h1 ⊢
    have ht : i < (flights.take q.maxOffers).length := by
      rw [assembleGo_length] at h1; exact h1
    rw [assembleGo_getElem q today db (flights.take q.maxOffers) 1 i ht h1]
    congr 1
    · exact List.getElem_take _
    · omega
  · intro q today db flights
    rw [hmap]
    exact List.nodup_range' _ _
  · intro q today db flights o ho
    have : o.offerRank ∈ (assembleOffers q today db flights).map (fun o => o.offerRank) :=
      List.mem_map_of_mem _ ho
    rw [hmap] at this
    exact (List.mem_range'_1.mp this).1

/-- Witness for C7 at a concrete query: three raw offers truncate to
`max_offers = 2` with ranks 1 and 2 in raw order. -/
theorem c7_rank_assignment_witness :
    (assembleOffers ⟨"ams".data, "cdg".data, "2026-01-02".data, "economy".data, 1, 0, 2⟩
        todayFix 1 [flightFix, flightNegStops, flightFix]).length = min 2 3 ∧
    (assembleOffers ⟨"ams".data, "cdg".data, "2026-01-02".data, "economy".data, 1, 0, 2⟩
        todayFix 1 [flightFix, flightNegStops, flightFix]).get ⟨1, by decide⟩ =
      mkOffer ⟨"ams".data, "cdg".data, "2026-01-02".data, "economy".data, 1, 0, 2⟩
        todayFix 1 ([flightFix, flightNegStops, flightFix].get ⟨1, by decide⟩) (1 + 1) :=
  ⟨c7_rank_assignment.1 _ todayFix 1 [flightFix, flightNegStops, flightFix],
   c7_rank_assignment.2.2.1 _ todayFix 1 [flightFix, flightNegStops, flightFix] 1
     (by decide) (by decide)⟩

/-! ## Claim C6: the dataset sink -/

/-- Claim C6: `save_to_csv` with an empty record collection leaves the
destination untouched; overwrite mode always writes exactly one header line,
so writing the same non-empty record set twice in overwrite mode produces the
same file with one header line and the same row count; append mode writes a
header only when the destination does not yet exist. -/
theorem c6_sink :
    (∀ (dest : Option (List CsvLine)) (append : Bool),
      saveToCsv [] dest append = dest) ∧
    (∀ (offers : List NormalizedOffer) (dest : Option (List CsvLine)), offers ≠ [] →
      saveToCsv offers dest false = some (CsvLine.header :: offers.map CsvLine.row)) ∧
    (∀ (offers : List NormalizedOffer) (dest : Option (List CsvLine)), offers ≠ [] →
      ((saveToCsv offers dest false).getD []).countP isHeaderLine = 1 ∧
      ((saveToCsv offers dest false).getD []).countP (fun l => !isHeaderLine l) =
        offers.length) ∧
    (∀ (offers : List NormalizedOffer) (dest : Option (List CsvLine)), offers ≠ [] →
      saveToCsv offers (saveToCsv offers dest false) false =
        saveToCsv offers dest false) ∧
    (∀ offers : List NormalizedOffer, offers ≠ [] →
      saveToCsv offers none true = some (CsvLine.header :: offers.map CsvLine.row)) ∧
    (∀ (offers : List NormalizedOffer) (c : List CsvLine), offers ≠ [] →
      saveToCsv offers (some c) true = some (c ++ offers.map CsvLine.row)) := by
  have hb : ∀ (offers : List NormalizedOffer) (dest : Option (List CsvLine)),
      offers ≠ [] →
      saveToCsv offers dest false = some (CsvLine.header :: offers.map CsvLine.row) := by
    intro offers dest h
    simp [saveToCsv, h]
  have hrows : ∀ offers : List NormalizedOffer,
      (offers.map CsvLine.row).countP isHeaderLine = 0 := by
    intro offers
    induction offers with
    | nil => rfl
    | cons o os ih => simp [List.countP_cons, ih, isHeaderLine]
  have hrows' : ∀ offers : List NormalizedOffer,
      (offers.map CsvLine.row).countP (fun l => !isHeaderLine l) = offers.length := by
    intro offers
    induction offers with
    | nil => rfl
    | cons o os ih => simp [List.countP_cons, ih, isHeaderLine]
  refine ⟨?_, hb, ?_, ?_, ?_, ?_⟩
  · intro dest app
    simp [saveToCsv]
  · intro offers dest h
    rw [hb offers dest h]
    constructor
    · simp [List.countP_cons, hrows, isHeaderLine]
    · simp [List.countP_cons, hrows', isHeaderLine]
  · intro offers dest h
    rw [hb offers dest h, hb offers _ h]
  · intro offers h
    simp [saveToCsv, h]
  · intro offers c h
    simp [saveToCsv, h]

/-- Witness for C6 at one concrete record: overwrite writes header + row and
is idempotent; append to an existing file adds no second header. -/
theorem c6_sink_witness :
    saveToCsv [offerFix] none false =
      some (CsvLine.header :: List.map CsvLine.row [offerFix]) ∧
    saveToCsv [offerFix] (saveToCsv [offerFix] none false) false =
      saveToCsv [offerFix] none false ∧
    saveToCsv [offerFix] (some [CsvLine.header, CsvLine.row offerFix]) true =
      some ([CsvLine.header, CsvLine.row offerFix] ++ List.map CsvLine.row [offerFix]) :=
  ⟨c6_sink.2.1 [offerFix] none (by simp),
   c6_sink.2.2.2.1 [offerFix] none (by simp),
   c6_sink.2.2.2.2.2 [offerFix] [CsvLine.header, CsvLine.row offerFix] (by simp)⟩

/-! ## Claim C1: the stop-inference fallback is absent from the code -/

/-- Claim C1 (code bug): the spec's stop-inference fallback and sanity
override never run.  `initFetcher` discards `max_direct_durations` entirely
(first conjunct: the state is independent of it), and at a concrete input
whose parser verdict is −1 with a 90-minute duration on a profiled route the
pipeline leaves `stops = −1`, while the spec-modelled inference
(`finalStopsSpec`) yields 0; the remaining conjuncts check the spec's own
inference test vectors, including the 240-minute fallback threshold and the
360-minute sanity override. -/
theorem c1_stop_inference_missing :
    (∀ (rd : ℚ) (mr : ℕ) (rdel : ℚ) (mode : List Char)
       (p p' : List (List Char × ℕ)) (mc : ℕ),
      initFetcher rd mr rdel mode p mc = initFetcher rd mr rdel mode p' mc) ∧
    (exceptToList (fetchFlightOffers cfgFix qFix todayFix attemptsOk)).map
      (fun o => o.stops) = [-1] ∧
    (exceptToList (fetchFlightOffers cfgFix qFix todayFix attemptsOk)).map
      (fun o => o.flightDuration) = [90] ∧
    finalStopsSpec profileFix "AMS-CDG".data 90 (-1) = 0 ∧
    finalStopsSpec profileFix "AMS-CDG".data 150 (-1) = 1 ∧
    finalStopsSpec [] "AMS-CDG".data 200 (-1) = 0 ∧
    finalStopsSpec [] "AMS-CDG".data 300 (-1) = 1 ∧
    finalStopsSpec profileFix "AMS-CDG".data 400 0 = 1 := by
  exact ⟨fun _ _ _ _ _ _ _ => rfl, by decide, by decide, by decide, by decide,
    by decide, by decide, by decide⟩

end FlightFetcher
